import Mathlib

/-
  Verification of the Harvest modal-executor core against its specification.

  Shallow embedding of:
  - packages/modal-executor/src/modal_executor/claude_cli.py  (ClaudeCliWrapper)
  - packages/modal-executor/src/modal_executor/session_state.py (SessionState)
  - packages/modal-executor/src/modal_executor/sandbox.py     (HarvestSandbox)

  Python dicts parsed from JSON are modelled as association lists with unique
  keys; machine integers are Int; fallible code returns explicit outcome types.
-/

namespace Harvest

/-! ## JSON values (results of Python `json.loads`) -/

inductive Json where
  | null
  | bool (b : Bool)
  | num (n : Int)
  | str (s : String)
  | arr (elems : List Json)
  | obj (fields : List (String × Json))

/-- Dictionary lookup `d.get(k)` / `d[k]`.  Fields model a Python dict, so keys
are unique and first-match lookup is exact. -/
def getKey (fields : List (String × Json)) (k : String) : Option Json :=
  match fields with
  | [] => none
  | (k', v) :: rest => if k' == k then some v else getKey rest k

/-- Python truthiness (`if text:`) for JSON-derived values. -/
def Json.truthy : Json → Bool
  | .null => false
  | .bool b => b
  | .num n => n != 0
  | .str s => !s.isEmpty
  | .arr xs => !xs.isEmpty
  | .obj fs => !fs.isEmpty

/-- Outcome of a Python expression that can raise `AttributeError`
(calling `.get` on a non-dict value). -/
inductive PyOut (α : Type) where
  | ok (v : α)
  | attributeError
deriving Repr

/-! ## ClaudeCliWrapper._extract_text (claude_cli.py lines 179-210)

```
if event.get("type") == "content_block_delta":
    delta = event.get("delta", {})
    return delta.get("text", "")
if "text" in event:
    return event["text"]
if "content" in event and isinstance(event["content"], str):
    return event["content"]
return ""
```
`event.get` on a non-dict raises AttributeError; likewise `delta.get` when the
`delta` value is not a dict (None/bool/int/str/list have no `.get`). -/

def isDeltaTag (fields : List (String × Json)) : Bool :=
  match getKey fields "type" with
  | some (.str s) => s == "content_block_delta"
  | _ => false

def extract_text (event : Json) : PyOut Json :=
  match event with
  | .obj fields =>
    if isDeltaTag fields then
      match getKey fields "delta" with
      | some (.obj d) => .ok ((getKey d "text").getD (.str ""))
      | none => .ok (.str "")
      | some _ => .attributeError
    else if (getKey fields "text").isSome then
      .ok ((getKey fields "text").getD .null)
    else
      match getKey fields "content" with
      | some (.str s) => .ok (.str s)
      | _ => .ok (.str "")
  | _ => .attributeError

/-! ## ClaudeCliWrapper._stream_json_chunks (claude_cli.py lines 121-154)

Each stdout line is either blank (skipped), non-JSON (json.JSONDecodeError is
caught and the line skipped), or parses to a `Json` event.  For events,
`_extract_text` runs; a truthy result is yielded.  An AttributeError from
`_extract_text` is not caught (only JSONDecodeError is) and aborts the stream. -/

inductive CliLine where
  | blank
  | badJson
  | event (j : Json)

def streamChunks : List CliLine → PyOut (List Json)
  | [] => .ok []
  | .blank :: rest => streamChunks rest
  | .badJson :: rest => streamChunks rest
  | .event j :: rest =>
    match extract_text j with
    | .attributeError => .attributeError
    | .ok t =>
      match streamChunks rest with
      | .attributeError => .attributeError
      | .ok ts => .ok (if t.truthy then t :: ts else ts)

/-! ## Substring test helper (used to state credential-leak properties) -/

def listSub (needle : List Char) : List Char → Bool
  | [] => needle.isEmpty
  | c :: rest => needle.isPrefixOf (c :: rest) || listSub needle rest

def substrB (needle hay : String) : Bool :=
  listSub needle.data hay.data

/-! ## ClaudeCliWrapper.stream_prompt exit handling (claude_cli.py lines 92-109)

```
self.last_returncode = proc.returncode
...
self.last_stderr = stderr_data.decode("utf-8", errors="replace")
if self.last_returncode != 0:
    error_msg = f"Claude CLI exited with code {self.last_returncode}"
    if self.last_stderr:
        error_msg += f": {self.last_stderr[:500]}"
    raise RuntimeError(error_msg)
```
No redaction of any kind is applied to `error_msg`; the wrapper defines no
`_redact_credentials` method. -/

/-- Outcome of the post-stream tail of `stream_prompt`: either the call
completes, or it raises RuntimeError carrying the given message. -/
inductive FinishOutcome where
  | completesOk
  | raisesRuntimeError (msg : String)
deriving DecidableEq, Repr

/-- Python slice `s[:n]` (first `n` code points). -/
def pySlice (n : Nat) (s : String) : String :=
  String.mk (s.data.take n)

def streamPromptFinish (returncode : Int) (last_stderr : String) : FinishOutcome :=
  if returncode != 0 then
    let base := "Claude CLI exited with code " ++ toString returncode
    .raisesRuntimeError
      (if last_stderr != "" then base ++ ": " ++ pySlice 500 last_stderr else base)
  else
    .completesOk

/-! ## json.dumps(data, indent=2) (used by HarvestSandbox._write_json_atomic)

Indented serialization mirroring Python's `json.dumps` with `indent=2` on the
documents this code writes (ASCII-printable content; key/element order is the
dict/list order). -/

def jsonEscapeChar (c : Char) : List Char :=
  if c == '"' then ['\\', '"']
  else if c == '\\' then ['\\', '\\']
  else if c == '\n' then ['\\', 'n']
  else if c == '\t' then ['\\', 't']
  else if c == '\r' then ['\\', 'r']
  else [c]

def jsonQuote (s : String) : String :=
  "\"" ++ String.mk (s.data.flatMap jsonEscapeChar) ++ "\""

def indentStr (lvl : Nat) : String :=
  String.mk (List.replicate (2 * lvl) ' ')

mutual

def Json.dump (lvl : Nat) (j : Json) : String :=
  match j with
  | .null => "null"
  | .bool b => if b then "true" else "false"
  | .num n => toString n
  | .str s => jsonQuote s
  | .arr [] => "[]"
  | .arr (x :: xs) =>
    "[\n" ++ Json.dumpElems (lvl + 1) x xs ++ "\n" ++ indentStr lvl ++ "]"
  | .obj [] => "\x7b\x7d"
  | .obj ((k, v) :: fs) =>
    "\x7b\n" ++ Json.dumpFields (lvl + 1) k v fs ++ "\n" ++ indentStr lvl ++ "\x7d"
termination_by sizeOf j
decreasing_by all_goals (simp_wf; try omega)

def Json.dumpElems (lvl : Nat) (x : Json) (xs : List Json) : String :=
  match xs with
  | [] => indentStr lvl ++ Json.dump lvl x
  | y :: ys => indentStr lvl ++ Json.dump lvl x ++ ",\n" ++ Json.dumpElems lvl y ys
termination_by sizeOf x + sizeOf xs
decreasing_by all_goals (simp_wf; try omega)

def Json.dumpFields (lvl : Nat) (k : String) (v : Json)
    (fs : List (String × Json)) : String :=
  match fs with
  | [] => indentStr lvl ++ jsonQuote k ++ ": " ++ Json.dump lvl v
  | (k2, v2) :: gs =>
    indentStr lvl ++ jsonQuote k ++ ": " ++ Json.dump lvl v ++ ",\n" ++
      Json.dumpFields lvl k2 v2 gs
termination_by sizeOf v + sizeOf fs
decreasing_by all_goals (simp_wf; try omega)

end

/-! ## HarvestSandbox._write_json_atomic (sandbox.py lines 509-524)

```
content = json.dumps(data, indent=2)
await self._get_sandbox().exec.aio(
    "bash", "-c",
    f"cat > \x7bpath\x7d.tmp << 'JSONEOF'\n\x7bcontent\x7d\nJSONEOF\n&& mv \x7bpath\x7d.tmp \x7bpath\x7d",
)
```
The exit status of the exec call is never checked. -/

def writeJsonAtomicScript (path content : String) : String :=
  "cat > " ++ path ++ ".tmp << \x27JSONEOF\x27\n" ++ content ++
    "\nJSONEOF\n&& mv " ++ path ++ ".tmp " ++ path

def write_json_atomic_script (path : String) (data : Json) : String :=
  writeJsonAtomicScript path (Json.dump 0 data)

/-- Split on newline characters (the line structure bash sees); mirrors
`splitOn "\n"`: `"a\nb"` gives `["a","b"]`, a trailing newline yields a final
empty line. -/
def splitLinesCh : List Char → List (List Char)
  | [] => [[]]
  | c :: rest =>
    if c == '\n' then [] :: splitLinesCh rest
    else
      match splitLinesCh rest with
      | [] => [[c]]
      | l :: ls => (c :: l) :: ls

def lineAfterTerminator : List (List Char) → Option (List Char)
  | [] => none
  | l :: rest => if l == "JSONEOF".data then rest.head? else lineAfterTerminator rest

/-- The command line bash reads after consuming the heredoc body: the body ends
at the first subsequent line equal to the delimiter `JSONEOF`. -/
def lineAfterHeredoc (script : String) : Option (List Char) :=
  match splitLinesCh script.data with
  | [] => none
  | _ :: rest => lineAfterTerminator rest

/-- Modelled bash semantics for the script family emitted by
`_write_json_atomic`: after the heredoc command writes the temp file, bash
reads the next command line.  A command line beginning with the control
operator `&&` is a bash syntax error (bash aborts with exit status 2 and
executes nothing further), so the rename onto the final path runs only when
that line is a well-formed `mv` command. -/
def bashRunsRename (script : String) : Bool :=
  match lineAfterHeredoc script with
  | some l => !("&&".data.isPrefixOf l) && "mv ".data.isPrefixOf l
  | none => false

/-! ## ClaudeCliWrapper.stream_prompt timeout handler (claude_cli.py lines 111-116)

```
except asyncio.TimeoutError:
    logger.error(f"Claude CLI timed out after \x7btimeout\x7ds")
    if proc:
        proc.kill()
        await proc.wait()
    raise
```
`asyncio.subprocess.Process.kill()` sends SIGKILL to the child pid only; the
subprocess is spawned without `start_new_session` and no `os.killpg` or other
process-group signal appears anywhere in claude_cli.py. -/

inductive TimeoutAction where
  | killChildProcess
  | killProcessGroup
  | awaitChildExit
  | reraiseTimeout
deriving DecidableEq, Repr

def streamPromptTimeoutCleanup : List TimeoutAction :=
  [.killChildProcess, .awaitChildExit, .reraiseTimeout]

/-! ## HarvestSession and the start() command sequence (sandbox.py) -/

structure HarvestSession where
  session_id : String
  repo_owner : String
  repo_name : String
  branch : String := "main"
  user_email : String := ""
  user_name : String := ""
  github_token : String := ""
  claude_oauth_token : String := ""

def HarvestSession.repo_path (s : HarvestSession) : String :=
  "/workspace/" ++ s.repo_name

inductive SbCmd where
  | gitConfigGlobal (key value : String)
  | bashC (script : String)
  | gitClone (branch url dest : String)
deriving DecidableEq, Repr

/-- The credentials line written by `_configure_git` (sandbox.py line 395). -/
def credsLine (s : HarvestSession) : String :=
  "https://x-access-token:" ++ s.github_token ++ "@github.com"

/-- The credentials-file write script (sandbox.py lines 396-400):
`printf '%s\n' '<creds>' > ~/.git-credentials && chmod 600 ~/.git-credentials`. -/
def credsScript (s : HarvestSession) : String :=
  "printf \x27%s\\n\x27 \x27" ++ credsLine s ++
    "\x27 > ~/.git-credentials && chmod 600 ~/.git-credentials"

/-- Commands issued by `_configure_git` (sandbox.py lines 382-420), in source
order: each `exec.aio` call is awaited before the next starts. -/
def configureGitCmds (s : HarvestSession) : List SbCmd :=
  [ .gitConfigGlobal "credential.helper" "store",
    .bashC (credsScript s),
    .gitConfigGlobal "user.email" s.user_email,
    .gitConfigGlobal "user.name" (s.user_name ++ " (Harvest)"),
    .gitConfigGlobal "push.autoSetupRemote" "true",
    .gitConfigGlobal "init.defaultBranch" "main" ]

/-- Clone URL built by `_clone_repo` (sandbox.py lines 364-366): composed only
from `repo_owner` and `repo_name`, with no token component. -/
def repoUrl (s : HarvestSession) : String :=
  "https://github.com/" ++ s.repo_owner ++ "/" ++ s.repo_name ++ ".git"

def cloneCmd (s : HarvestSession) : SbCmd :=
  .gitClone s.branch (repoUrl s) s.repo_path

/-- The unconditional command prefix of a successful `start()` (sandbox.py
lines 350-352): `await self._configure_git()` completes before
`await self._clone_repo()` begins; the later seeding and CLI-init steps follow
the clone and are irrelevant to the ordering claim. -/
def startPrefixCmds (s : HarvestSession) : List SbCmd :=
  configureGitCmds s ++ [cloneCmd s]

/-! ## SessionState (session_state.py)

The `conversation` table is modelled as a list of (role, content) records in
insertion order (the autoincrement id order).  `add_exchange` (lines 108-127)
inserts a user record then an assistant record.  `build_context_prompt`
(lines 72-106) selects `ORDER BY id DESC LIMIT 10` and reverses the rows
(oldest first), which is exactly the last ten records in insertion order. -/

abbrev ConvDb := List (String × String)

def add_exchange (db : ConvDb) (userText assistantText : String) : ConvDb :=
  db ++ [("user", userText), ("assistant", assistantText)]

def lastTen (db : ConvDb) : ConvDb :=
  (db.reverse.take 10).reverse

def historyLines (h : ConvDb) : String :=
  String.join (h.map (fun rc => rc.1 ++ ": " ++ rc.2 ++ "\n"))

def build_context_prompt (db : ConvDb) (new_prompt : String) : String :=
  let history := lastTen db
  if history.isEmpty then new_prompt
  else
    "Previous conversation:\n" ++ historyLines history ++ "\nUser: " ++
      new_prompt ++ "\n"

/-! ## HarvestSandbox.send_prompt_stream (sandbox.py lines 618-659)

The method is an async generator:
```
context_prompt = self.session_state.build_context_prompt(prompt)
response_parts = []
async for chunk in self.cli_wrapper.stream_prompt(prompt=context_prompt, ...):
    response_parts.append(chunk)
    yield chunk
full_response = "".join(response_parts)
self.session_state.add_exchange(prompt, full_response)
```
Generator semantics: each pull by the caller before the wrapper stream is
exhausted yields the next chunk; the pull after the last chunk runs the
post-loop code, whose single `add_exchange` call site appends exactly one
exchange — the caller's original `prompt` (not `context_prompt`) paired with
the full joined response.  Cancellation, or a wrapper failure, after
`pulls ≤ chunks.length` pulls means execution never reaches the post-loop
code, so the session store is untouched. -/

structure GenState where
  yielded : List String
  store : ConvDb
  finished : Bool
deriving DecidableEq, Repr

def send_prompt_stream (db : ConvDb) (prompt : String) (chunks : List String)
    (pulls : Nat) : GenState :=
  if pulls ≤ chunks.length then
    { yielded := chunks.take pulls, store := db, finished := false }
  else
    { yielded := chunks,
      store := add_exchange db prompt (String.join chunks),
      finished := true }

/-- The prompt actually handed to the CLI wrapper (sandbox.py lines 641-648). -/
def sentCliPrompt (db : ConvDb) (prompt : String) : String :=
  build_context_prompt db prompt

def completedTurn (db : ConvDb) (p : String) (cs : List String) : ConvDb :=
  (send_prompt_stream db p cs (cs.length + 1)).store

def runTurns : ConvDb → List (String × List String) → ConvDb
  | db, [] => db
  | db, (p, cs) :: rest => runTurns (completedTurn db p cs) rest

/-! ## HarvestSandbox._get_claude_version_safe (sandbox.py lines 476-507)

```
version_output = proc.stdout.read().strip()
match = re.search(r"(\d+\.\d+\.\d+)", version_output)
if match:
    return match.group(1)
else:
    return "2.1.3"
```
`re.search` takes the leftmost match; each `\d+` is a maximal digit run (a
shorter run would have to be followed by `.`, but the next character after a
shorter run is a digit, so no backtracking alternative exists). -/

def matchVersionAt (cs : List Char) : Option (List Char) :=
  let (d1, r1) := cs.span Char.isDigit
  if d1.isEmpty then none else
  match r1 with
  | '.' :: r2 =>
    let (d2, r3) := r2.span Char.isDigit
    if d2.isEmpty then none else
    match r3 with
    | '.' :: r4 =>
      let (d3, _) := r4.span Char.isDigit
      if d3.isEmpty then none else some (d1 ++ '.' :: d2 ++ '.' :: d3)
    | _ => none
  | _ => none

def searchVersion : List Char → Option (List Char)
  | [] => none
  | c :: rest =>
    match matchVersionAt (c :: rest) with
    | some m => some m
    | none => searchVersion rest

/-- Python `str.strip()` whitespace set. -/
def isPyStripSpace (c : Char) : Bool :=
  c == ' ' || c == '\t' || c == '\n' || c == '\r' || c == '\x0b' || c == '\x0c'

def pyStrip (cs : List Char) : List Char :=
  ((cs.dropWhile isPyStripSpace).reverse.dropWhile isPyStripSpace).reverse

def get_claude_version_safe (version_output : String) : String :=
  match searchVersion (pyStrip version_output.data) with
  | some m => String.mk m
  | none => "2.1.3"

/-! ## Credential redactor

Modelled from the spec: the method `ClaudeCliWrapper._redact_credentials` is
exercised by the repository's tests (tests/test_claude_cli.py) but is absent
from claude_cli.py, so it is modelled from spec section 4.1 and section 9: an
ordered rule table evaluated left-to-right per line — provider-specific rules
(an OAuth-token shape `oauth_` + word characters, then the GitHub prefixes
`ghp_`, `gho_`, `github_pat_`) before a generic catch-all matching contiguous
alphanumeric runs of length at least 40; each match is replaced by the fixed
marker of its rule category (`oauth_REDACTED`, `ghp_REDACTED`, `gho_REDACTED`,
`github_pat_REDACTED`, `TOKEN_REDACTED`), earlier rules taking precedence at
overlapping offsets.  Tokens are the maximal word-character runs of the text;
non-credential text passes through unchanged. -/

def isWordChar (c : Char) : Bool :=
  c.isAlphanum || c == '_'

inductive Tok where
  | word (cs : List Char)
  | sep (c : Char)
deriving DecidableEq, Repr

def flushWord (acc : List Char) (toks : List Tok) : List Tok :=
  if acc.isEmpty then toks else .word acc.reverse :: toks

def tokenizeAux (acc : List Char) : List Char → List Tok
  | [] => flushWord acc []
  | c :: rest =>
    if isWordChar c then tokenizeAux (c :: acc) rest
    else flushWord acc (.sep c :: tokenizeAux [] rest)

def tokenize (cs : List Char) : List Tok :=
  tokenizeAux [] cs

def renderToks : List Tok → List Char
  | [] => []
  | .word w :: rest => w ++ renderToks rest
  | .sep c :: rest => c :: renderToks rest

def redactWord (w : List Char) : List Char :=
  if "oauth_".data.isPrefixOf w && 6 < w.length then "oauth_REDACTED".data
  else if "ghp_".data.isPrefixOf w && 4 < w.length then "ghp_REDACTED".data
  else if "gho_".data.isPrefixOf w && 4 < w.length then "gho_REDACTED".data
  else if "github_pat_".data.isPrefixOf w && 11 < w.length then "github_pat_REDACTED".data
  else if 40 ≤ w.length && w.all Char.isAlphanum then "TOKEN_REDACTED".data
  else w

def redactTok : Tok → Tok
  | .word w => .word (redactWord w)
  | .sep c => .sep c

def redact_credentials (text : String) : String :=
  String.mk (renderToks ((tokenize text.data).map redactTok))

/-! ## Shared helper lemmas -/

theorem listSub_append_outer (n b : List Char) (h : listSub n b = true) :
    ∀ a : List Char, listSub n (a ++ b) = true := by
  intro a
  induction a with
  | nil => simpa using h
  | cons c a ih =>
    show listSub n (c :: (a ++ b)) = true
    unfold listSub
    rw [ih]
    simp

theorem listIsPrefixOfAppend (a b : List Char) : a.isPrefixOf (a ++ b) = true := by
  induction a with
  | nil => simp [List.isPrefixOf]
  | cons c a ih => simp [List.isPrefixOf, ih]

theorem listSub_append_self (n rest : List Char) : listSub n (n ++ rest) = true := by
  cases n with
  | nil =>
    cases rest with
    | nil => rfl
    | cons c r => simp [listSub, List.isPrefixOf]
  | cons c n' =>
    show listSub (c :: n') (c :: (n' ++ rest)) = true
    unfold listSub
    rw [show c :: (n' ++ rest) = (c :: n') ++ rest from rfl,
      listIsPrefixOfAppend (c :: n') rest]
    simp

theorem substrB_append_self (n t : String) : substrB n (n ++ t) = true := by
  unfold substrB
  rw [String.data_append]
  exact listSub_append_self n.data t.data

/-! ## C1 -/

/-- C1: the claim says the failure raised for a non-zero exit embeds a
*redacted* stderr excerpt so the literal credential never appears.  The code
(claude_cli.py lines 102-107) embeds the raw, merely length-truncated stderr:
with exit code 1 and stderr `Error: Invalid token oauth_abc123xyz456`, the
raised message contains the literal token (while the redactor demanded by the
repository's own tests would have removed it).  The exit-code-0 half of the
claim does hold: the call finishes without raising. -/
theorem c1_error_message_embeds_raw_credential :
    streamPromptFinish 1 "Error: Invalid token oauth_abc123xyz456" =
      .raisesRuntimeError
        "Claude CLI exited with code 1: Error: Invalid token oauth_abc123xyz456" ∧
    substrB "oauth_abc123xyz456"
      "Claude CLI exited with code 1: Error: Invalid token oauth_abc123xyz456" = true ∧
    substrB "oauth_abc123xyz456"
      (redact_credentials "Error: Invalid token oauth_abc123xyz456") = false ∧
    streamPromptFinish 0 "some stderr noise" = .completesOk := by
  refine ⟨by decide, by decide, by decide, by decide⟩

/-! ## C2 -/

/-- C2: the claim says the temporary file is renamed onto the final path, so
the final path ends up holding the new document.  The script emitted by
`_write_json_atomic` (sandbox.py line 523) puts `&& mv <path>.tmp <path>` on
its own line after the heredoc terminator; a command line starting with the
control operator `&&` is a bash syntax error (bash exits with status 2 after
writing the temp file, verified against bash), so the rename never executes
and the final path never receives the new document.  Shown here at the
concrete call `_write_json_atomic("/root/.claude.json", dict())`. -/
theorem c2_rename_line_is_bash_syntax_error :
    write_json_atomic_script "/root/.claude.json" (.obj []) =
      "cat > /root/.claude.json.tmp << \x27JSONEOF\x27\n\x7b\x7d\nJSONEOF\n&& mv /root/.claude.json.tmp /root/.claude.json" ∧
    lineAfterHeredoc (write_json_atomic_script "/root/.claude.json" (.obj [])) =
      some "&& mv /root/.claude.json.tmp /root/.claude.json".data ∧
    bashRunsRename (write_json_atomic_script "/root/.claude.json" (.obj [])) = false := by
  have hd : Json.dump 0 (Json.obj []) = "\x7b\x7d" := by simp [Json.dump]
  have hs : write_json_atomic_script "/root/.claude.json" (.obj []) =
      "cat > /root/.claude.json.tmp << \x27JSONEOF\x27\n\x7b\x7d\nJSONEOF\n&& mv /root/.claude.json.tmp /root/.claude.json" := by
    rw [write_json_atomic_script, hd]
    decide
  refine ⟨hs, ?_, ?_⟩ <;> rw [hs] <;> decide

/-! ## C3 -/

/-- C3 counterexample: the claim states that on a line-read timeout the child
CLI process *and its process group* are terminated.  The timeout handler
(claude_cli.py lines 111-116) performs `proc.kill()` — SIGKILL to the child
pid only — and no process-group signal occurs anywhere in the module. -/
theorem c3_counterexample_no_process_group_kill :
    TimeoutAction.killProcessGroup ∉ streamPromptTimeoutCleanup := by
  decide

/-- C3 (amended): whenever the per-line read timeout elapses during streaming,
`stream_prompt` kills the child CLI process (SIGKILL to that process only) and
waits for it before propagating the timeout failure; the child's process group
is not separately terminated. -/
theorem c3_timeout_kills_child_before_reraise :
    TimeoutAction.killChildProcess ∈ streamPromptTimeoutCleanup ∧
    streamPromptTimeoutCleanup.indexOf TimeoutAction.killChildProcess <
      streamPromptTimeoutCleanup.indexOf TimeoutAction.awaitChildExit ∧
    streamPromptTimeoutCleanup.indexOf TimeoutAction.awaitChildExit <
      streamPromptTimeoutCleanup.indexOf TimeoutAction.reraiseTimeout ∧
    TimeoutAction.killProcessGroup ∉ streamPromptTimeoutCleanup := by
  refine ⟨by decide, by decide, by decide, by decide⟩

/-! ## C9 -/

/-- C9: version parsing extracts the first `major.minor.patch`-shaped
substring of the (stripped) version-subcommand output, tolerating arbitrary
prefixes, and falls back to the literal `"2.1.3"` when no such substring
exists; all five spec examples hold, and with two candidate substrings the
leftmost wins. -/
theorem c9_version_parsing_examples :
    get_claude_version_safe "2.1.3" = "2.1.3" ∧
    get_claude_version_safe "Claude CLI 2.1.3" = "2.1.3" ∧
    get_claude_version_safe "Version: 2.1.3" = "2.1.3" ∧
    get_claude_version_safe "claude version 3.0.1 (build 456)" = "3.0.1" ∧
    get_claude_version_safe "unexpected output" = "2.1.3" ∧
    get_claude_version_safe "first 1.2.3 then 9.9.9" = "1.2.3" := by
  refine ⟨by decide, by decide, by decide, by decide, by decide, by decide⟩

/-! ## C5 -/

/-- C5: in every successful `start()`, the credential-helper configuration
(position 0) and the owner-only credentials-file write (position 1, whose
script ends in `chmod 600 ~/.git-credentials`) are issued and awaited before
the clone command (position 6, the only clone in the sequence), and the clone
URL is a function of owner and name alone — changing the token leaves it
unchanged, so the URL never embeds the token. -/
theorem c5_creds_before_clone_and_tokenless_url :
    ∀ s : HarvestSession,
      (startPrefixCmds s)[0]? = some (.gitConfigGlobal "credential.helper" "store") ∧
      (startPrefixCmds s)[1]? = some (.bashC (credsScript s)) ∧
      (startPrefixCmds s)[6]? = some (cloneCmd s) ∧
      (∀ j b u d, (startPrefixCmds s)[j]? = some (.gitClone b u d) → j = 6) ∧
      substrB "chmod 600 ~/.git-credentials" (credsScript s) = true ∧
      (∀ t : String, repoUrl { s with github_token := t } = repoUrl s) := by
  intro s
  refine ⟨rfl, rfl, rfl, ?_, ?_, fun t => rfl⟩
  · intro j b u d h
    match j with
    | 0 | 1 | 2 | 3 | 4 | 5 =>
      simp [startPrefixCmds, configureGitCmds] at h
    | 6 => rfl
    | (k + 7) =>
      simp [startPrefixCmds, configureGitCmds, List.getElem?_eq_none] at h
  · show listSub _ (credsScript s).data = true
    unfold credsScript
    rw [String.data_append]
    exact listSub_append_outer _ _ (by decide) _

/-- A concrete session configuration, used to instantiate universally
quantified session facts. -/
def sessionExample : HarvestSession :=
  { session_id := "abc123", repo_owner := "RelevanceAI", repo_name := "harvest",
    branch := "main", user_email := "dev@example.com", user_name := "Developer",
    github_token := "ghp_sampletoken", claude_oauth_token := "oauth_sample" }

/-- Witness for C5 at a concrete session: the clone command indeed sits at
position 6, the credentials script carries the owner-only chmod, and changing
the token leaves the clone URL untouched. -/
theorem c5_creds_before_clone_and_tokenless_url_witness :
    (6 : Nat) = 6 ∧
    substrB "chmod 600 ~/.git-credentials" (credsScript sessionExample) = true ∧
    repoUrl { sessionExample with github_token := "other" } = repoUrl sessionExample :=
  ⟨(c5_creds_before_clone_and_tokenless_url sessionExample).2.2.2.1 6 "main"
      (repoUrl sessionExample) sessionExample.repo_path rfl,
   (c5_creds_before_clone_and_tokenless_url sessionExample).2.2.2.2.1,
   (c5_creds_before_clone_and_tokenless_url sessionExample).2.2.2.2.2 "other"⟩

/-! ## C6 -/

theorem lastTen_isEmpty_eq (db : ConvDb) : (lastTen db).isEmpty = db.isEmpty := by
  cases db with
  | nil => rfl
  | cons r rest =>
    show (lastTen (r :: rest)).isEmpty = false
    simp [lastTen, List.isEmpty_iff, List.reverse_eq_nil_iff, List.take_eq_nil_iff]

theorem bcp_ne_nil (db : ConvDb) (p : String) (h : db ≠ []) :
    build_context_prompt db p =
      "Previous conversation:\n" ++ historyLines (lastTen db) ++ "\nUser: " ++
        p ++ "\n" := by
  have hne : (lastTen db).isEmpty = false := by
    rw [lastTen_isEmpty_eq]
    simpa using h
  simp [build_context_prompt, hne]

/-- C6: `build_context_prompt` returns the new prompt unchanged on an empty
conversation log; otherwise it renders the header line, one `role: content`
line per record of the ten most recent records in insertion (oldest-first)
order, and the new prompt under a `User:` label.  After the two
`add_exchange` calls of the spec scenario, the four role-labelled lines
appear in insertion order before the new-prompt line. -/
theorem c6_build_context_prompt :
    (∀ p : String, build_context_prompt [] p = p) ∧
    build_context_prompt
        (add_exchange (add_exchange [] "Fix the bug" "I fixed it in auth.py")
          "Add tests" "Added 3 tests") "What changed?" =
      "Previous conversation:\nuser: Fix the bug\nassistant: I fixed it in auth.py\nuser: Add tests\nassistant: Added 3 tests\n\nUser: What changed?\n" ∧
    (∀ (db : ConvDb) (p : String), db ≠ [] →
      build_context_prompt db p =
        "Previous conversation:\n" ++ historyLines (lastTen db) ++ "\nUser: " ++
          p ++ "\n") := by
  exact ⟨fun p => rfl, by decide, fun db p h => bcp_ne_nil db p h⟩

/-- Witness for C6 at a concrete nonempty log. -/
theorem c6_build_context_prompt_witness :
    build_context_prompt [("user", "hi")] "q" =
      "Previous conversation:\n" ++ historyLines (lastTen [("user", "hi")]) ++
        "\nUser: " ++ "q" ++ "\n" :=
  c6_build_context_prompt.2.2 [("user", "hi")] "q" (by decide)

/-! ## C7 -/

/-- C7: if `send_prompt_stream` is cancelled or fails before its chunk stream
is exhausted (the generator is driven at most `chunks.length` pulls), the
session store is unchanged and the post-loop code never ran; only when the
stream fully completes is exactly one exchange appended, with the full
accumulated response as the assistant content. -/
theorem c7_no_partial_exchange_recorded :
    (∀ (db : ConvDb) (prompt : String) (chunks : List String) (pulls : Nat),
      pulls ≤ chunks.length →
        (send_prompt_stream db prompt chunks pulls).store = db ∧
        (send_prompt_stream db prompt chunks pulls).finished = false) ∧
    (∀ (db : ConvDb) (prompt : String) (chunks : List String) (pulls : Nat),
      chunks.length < pulls →
        (send_prompt_stream db prompt chunks pulls).store =
          add_exchange db prompt (String.join chunks) ∧
        (send_prompt_stream db prompt chunks pulls).yielded = chunks) := by
  constructor
  · intro db prompt chunks pulls h
    simp [send_prompt_stream, h]
  · intro db prompt chunks pulls h
    have hn : ¬pulls ≤ chunks.length := by omega
    simp [send_prompt_stream, hn]

/-- Witness for C7: a cancellation after one of two chunks records nothing;
full completion records the joined response. -/
theorem c7_no_partial_exchange_recorded_witness :
    (send_prompt_stream [] "p" ["a", "b"] 1).store = [] ∧
    (send_prompt_stream [] "p" ["a", "b"] 3).store =
      add_exchange [] "p" (String.join ["a", "b"]) :=
  ⟨(c7_no_partial_exchange_recorded.1 [] "p" ["a", "b"] 1 (by decide)).1,
   (c7_no_partial_exchange_recorded.2 [] "p" ["a", "b"] 3 (by decide)).1⟩

/-! ## C4 -/

/-- C4 counterexample: the claim states that any valid JSON object other than
the three recognized shapes yields no text and raises no exception.  The
object `\x7b"type": "content_block_delta", "delta": "boom"\x7d` carries no nested
`delta.text`, yet `_extract_text` evaluates `"boom".get("text", "")` and
raises AttributeError (only json.JSONDecodeError is caught upstream, so the
exception propagates and aborts the stream). -/
theorem c4_counterexample_nondict_delta_raises :
    extract_text (.obj [("type", .str "content_block_delta"), ("delta", .str "boom")]) =
      .attributeError := rfl

/-- C4 (amended): text extraction tries the three shapes in order, where shape
(1) matches on the `type` tag alone — when `delta` is absent or an object,
it yields `delta.text` (empty when missing) and later shapes are never
consulted even if the yield is empty; when `delta` is present but not an
object the call raises AttributeError instead of yielding no text.  Shapes
(2) direct top-level `text` and (3) string-typed top-level `content` behave as
claimed; any other valid JSON object yields no text and no exception, and any
blank or unparsable line is skipped without exception. -/
theorem c4_extract_text_shapes :
    (∀ (fields : List (String × Json)) (d : List (String × Json)),
      isDeltaTag fields = true → getKey fields "delta" = some (.obj d) →
      extract_text (.obj fields) = .ok ((getKey d "text").getD (.str ""))) ∧
    (∀ fields : List (String × Json),
      isDeltaTag fields = true → getKey fields "delta" = none →
      extract_text (.obj fields) = .ok (.str "")) ∧
    (∀ (fields : List (String × Json)) (j : Json),
      isDeltaTag fields = true → getKey fields "delta" = some j →
      (∀ d, j ≠ .obj d) →
      extract_text (.obj fields) = .attributeError) ∧
    (∀ (fields : List (String × Json)) (j : Json),
      isDeltaTag fields = false → getKey fields "text" = some j →
      extract_text (.obj fields) = .ok j) ∧
    (∀ (fields : List (String × Json)) (s : String),
      isDeltaTag fields = false → getKey fields "text" = none →
      getKey fields "content" = some (.str s) →
      extract_text (.obj fields) = .ok (.str s)) ∧
    (∀ fields : List (String × Json),
      isDeltaTag fields = false → getKey fields "text" = none →
      (∀ s, getKey fields "content" ≠ some (.str s)) →
      extract_text (.obj fields) = .ok (.str "")) ∧
    (∀ rest : List CliLine,
      streamChunks (.badJson :: rest) = streamChunks rest ∧
      streamChunks (.blank :: rest) = streamChunks rest) := by
  refine ⟨?_, ?_, ?_, ?_, ?_, ?_, fun rest => ⟨rfl, rfl⟩⟩
  · intro fields d h1 h2
    simp [extract_text, h1, h2]
  · intro fields h1 h2
    simp [extract_text, h1, h2]
  · intro fields j h1 h2 h3
    cases j with
    | obj d => exact absurd rfl (h3 d)
    | null => simp [extract_text, h1, h2]
    | bool b => simp [extract_text, h1, h2]
    | num n => simp [extract_text, h1, h2]
    | str s => simp [extract_text, h1, h2]
    | arr xs => simp [extract_text, h1, h2]
  · intro fields j h1 h2
    simp [extract_text, h1, h2]
  · intro fields s h1 h2 h3
    simp [extract_text, h1, h2, h3]
  · intro fields h1 h2 h3
    cases hc : getKey fields "content" with
    | none => simp [extract_text, h1, h2, hc]
    | some j =>
      cases j with
      | str s => exact absurd hc (h3 s)
      | null => simp [extract_text, h1, h2, hc]
      | bool b => simp [extract_text, h1, h2, hc]
      | num n => simp [extract_text, h1, h2, hc]
      | arr xs => simp [extract_text, h1, h2, hc]
      | obj fs => simp [extract_text, h1, h2, hc]

/-- Witness for C4: concrete events exercising each recognized shape and the
unrecognized-object fallback. -/
theorem c4_extract_text_shapes_witness :
    extract_text (.obj [("type", .str "content_block_delta"),
        ("delta", .obj [("text", .str "hi")]), ("text", .str "later")]) =
      .ok (.str "hi") ∧
    extract_text (.obj [("text", .str "yo"), ("content", .str "cc")]) =
      .ok (.str "yo") ∧
    extract_text (.obj [("content", .str "cc")]) = .ok (.str "cc") ∧
    extract_text (.obj [("foo", .num 3)]) = .ok (.str "") :=
  ⟨c4_extract_text_shapes.1 _ [("text", .str "hi")] rfl rfl,
   c4_extract_text_shapes.2.2.2.1 _ (.str "yo") rfl rfl,
   c4_extract_text_shapes.2.2.2.2.1 _ "cc" rfl rfl rfl,
   c4_extract_text_shapes.2.2.2.2.2.1 _ rfl rfl (fun _ h => nomatch h)⟩

/-! ## C10 -/

/-- The synthetic history header introduced by `build_context_prompt`. -/
def ctxHeader : String := "Previous conversation:"

theorem completedTurn_eq (db : ConvDb) (p : String) (cs : List String) :
    completedTurn db p cs = db ++ [("user", p), ("assistant", String.join cs)] := by
  have hn : ¬cs.length + 1 ≤ cs.length := by omega
  simp [completedTurn, send_prompt_stream, hn, add_exchange]

/-- C10: a completed `send_prompt_stream` records the caller's original prompt
as the user-record content — not the context-enriched prompt, which (whenever
history exists) contains the synthetic header — so across any sequence of
completed prompts whose original prompts and responses are header-free, no stored
conversation record ever contains the header, and the context header does not
nest across turns. -/
theorem c10_stored_records_lack_context_header :
    (∀ (db : ConvDb) (p : String) (cs : List String),
      completedTurn db p cs = db ++ [("user", p), ("assistant", String.join cs)]) ∧
    (∀ (db : ConvDb) (p : String), db ≠ [] →
      substrB ctxHeader (sentCliPrompt db p) = true) ∧
    (∀ (turns : List (String × List String)) (db : ConvDb),
      (∀ r ∈ db, substrB ctxHeader r.2 = false) →
      (∀ t ∈ turns, substrB ctxHeader t.1 = false ∧
        substrB ctxHeader (String.join t.2) = false) →
      ∀ r ∈ runTurns db turns, substrB ctxHeader r.2 = false) := by
  refine ⟨completedTurn_eq, ?_, ?_⟩
  · intro db p h
    show substrB ctxHeader (build_context_prompt db p) = true
    rw [bcp_ne_nil db p h,
      show ("Previous conversation:\n" : String) = ctxHeader ++ "\n" from by decide]
    simp only [String.append_assoc]
    exact substrB_append_self ctxHeader _
  · intro turns
    induction turns with
    | nil => intro db hdb _ r hr; exact hdb r hr
    | cons t ts ih =>
      intro db hdb hts
      obtain ⟨p, cs⟩ := t
      show ∀ r ∈ runTurns (completedTurn db p cs) ts, substrB ctxHeader r.2 = false
      apply ih
      · intro r hr
        rw [completedTurn_eq] at hr
        rcases List.mem_append.mp hr with hl | hr2
        · exact hdb r hl
        · rcases hr2 with _ | ⟨_, hr3⟩
          · exact (hts (p, cs) (List.mem_cons_self _ _)).1
          · rcases hr3 with _ | ⟨_, hr4⟩
            · exact (hts (p, cs) (List.mem_cons_self _ _)).2
            · exact absurd hr4 (List.not_mem_nil r)
      · intro t' ht'
        exact hts t' (List.mem_cons_of_mem _ ht')

/-- Witness for C10: a concrete completed turn stores the original prompt; a
concrete nonempty log makes the CLI-bound prompt contain the header; a
concrete two-turn run leaves a specific stored record header-free. -/
theorem c10_stored_records_lack_context_header_witness :
    completedTurn [] "Fix the bug" ["I fixed", " it"] =
      [("user", "Fix the bug"), ("assistant", String.join ["I fixed", " it"])] ∧
    substrB ctxHeader (sentCliPrompt [("user", "hi")] "q") = true ∧
    substrB ctxHeader
      (("assistant", String.join ["Added 3 tests"]) : String × String).2 = false :=
  ⟨c10_stored_records_lack_context_header.1 [] "Fix the bug" ["I fixed", " it"],
   c10_stored_records_lack_context_header.2.1 [("user", "hi")] "q" (by decide),
   c10_stored_records_lack_context_header.2.2 [("Add tests", ["Added 3 tests"])] []
     (fun r hr => nomatch hr) (by decide)
     ("assistant", String.join ["Added 3 tests"]) (by decide)⟩

/-! ## C8: redaction idempotence

Structure of the argument: `redact_credentials` tokenizes the text into
maximal word-character runs and single separator characters, rewrites each
word by the first matching rule, and renders back.  Rewritten words are the
fixed markers, which are themselves nonempty pure-word tokens, so the
rendered output retokenizes to exactly the rewritten token list; and each
rule marker is a fixed point of the rule table, so a second pass changes
nothing. -/

theorem redactWord_cases (w : List Char) :
    redactWord w = "oauth_REDACTED".data ∨ redactWord w = "ghp_REDACTED".data ∨
    redactWord w = "gho_REDACTED".data ∨
    redactWord w = "github_pat_REDACTED".data ∨
    redactWord w = "TOKEN_REDACTED".data ∨ redactWord w = w := by
  unfold redactWord
  split_ifs <;> simp

theorem redactWord_idem (w : List Char) :
    redactWord (redactWord w) = redactWord w := by
  rcases redactWord_cases w with h | h | h | h | h | h <;> rw [h]
  · decide
  · decide
  · decide
  · decide
  · decide
  · exact h

theorem redactTok_idem (t : Tok) : redactTok (redactTok t) = redactTok t := by
  cases t with
  | word w => simp [redactTok, redactWord_idem]
  | sep c => rfl

theorem redactWord_props (w : List Char) (h1 : w ≠ [])
    (h2 : ∀ c ∈ w, isWordChar c = true) :
    redactWord w ≠ [] ∧ ∀ c ∈ redactWord w, isWordChar c = true := by
  unfold redactWord
  split_ifs
  · exact ⟨by decide, by decide⟩
  · exact ⟨by decide, by decide⟩
  · exact ⟨by decide, by decide⟩
  · exact ⟨by decide, by decide⟩
  · exact ⟨by decide, by decide⟩
  · exact ⟨h1, h2⟩

/-- Well-formed token lists: words are nonempty pure-word runs, separators are
non-word characters, and no two words are adjacent (maximality). -/
inductive WfToks : List Tok → Prop where
  | nil : WfToks []
  | sep (c : Char) (rest : List Tok) (h : isWordChar c = false)
      (hr : WfToks rest) : WfToks (.sep c :: rest)
  | wordLast (w : List Char) (h1 : w ≠ [])
      (h2 : ∀ c ∈ w, isWordChar c = true) : WfToks [.word w]
  | wordSep (w : List Char) (c : Char) (rest : List Tok) (h1 : w ≠ [])
      (h2 : ∀ ch ∈ w, isWordChar ch = true) (h3 : isWordChar c = false)
      (hr : WfToks rest) : WfToks (.word w :: .sep c :: rest)

theorem wf_tokenizeAux (l : List Char) :
    ∀ acc : List Char, (∀ c ∈ acc, isWordChar c = true) →
      WfToks (tokenizeAux acc l) := by
  induction l with
  | nil =>
    intro acc hacc
    show WfToks (flushWord acc [])
    unfold flushWord
    split_ifs with he
    · exact .nil
    · refine .wordLast acc.reverse ?_ (fun c hc => hacc c (List.mem_reverse.mp hc))
      simp only [List.isEmpty_iff] at he
      simpa using he
  | cons c rest ih =>
    intro acc hacc
    show WfToks (tokenizeAux acc (c :: rest))
    unfold tokenizeAux
    split_ifs with hw
    · refine ih (c :: acc) ?_
      intro d hd
      rcases List.mem_cons.mp hd with h | h
      · subst h; exact hw
      · exact hacc d h
    · have hwf : isWordChar c = false := by simpa using hw
      have hr : WfToks (tokenizeAux [] rest) :=
        ih [] (fun d hd => absurd hd (List.not_mem_nil d))
      unfold flushWord
      split_ifs with he
      · exact .sep c _ hwf hr
      · refine .wordSep acc.reverse c _ ?_
          (fun d hd => hacc d (List.mem_reverse.mp hd)) hwf hr
        simp only [List.isEmpty_iff] at he
        simpa using he

theorem wf_tokenize (cs : List Char) : WfToks (tokenize cs) :=
  wf_tokenizeAux cs [] (fun c hc => absurd hc (List.not_mem_nil c))

theorem wf_map_redactTok {ts : List Tok} (h : WfToks ts) :
    WfToks (ts.map redactTok) := by
  induction h with
  | nil => exact .nil
  | sep c rest hc hr ih => exact .sep c _ hc ih
  | wordLast w h1 h2 =>
    have hp := redactWord_props w h1 h2
    exact .wordLast (redactWord w) hp.1 hp.2
  | wordSep w c rest h1 h2 h3 hr ih =>
    have hp := redactWord_props w h1 h2
    exact .wordSep (redactWord w) c _ hp.1 hp.2 h3 ih

theorem tokenizeAux_cons (acc : List Char) (c : Char) (rest : List Char) :
    tokenizeAux acc (c :: rest) =
      if isWordChar c then tokenizeAux (c :: acc) rest
      else flushWord acc (.sep c :: tokenizeAux [] rest) := by
  conv_lhs => unfold tokenizeAux

theorem flushWord_ne (acc : List Char) (toks : List Tok)
    (h : acc.isEmpty = false) :
    flushWord acc toks = .word acc.reverse :: toks := by
  unfold flushWord
  rw [h]
  simp

theorem tokenizeAux_word_chunk (w : List Char) :
    ∀ (acc l : List Char), (∀ c ∈ w, isWordChar c = true) →
      tokenizeAux acc (w ++ l) = tokenizeAux (w.reverse ++ acc) l := by
  induction w with
  | nil => intro acc l _; simp
  | cons c w' ih =>
    intro acc l hw
    have hc : isWordChar c = true := hw c (List.mem_cons_self c w')
    show tokenizeAux acc (c :: (w' ++ l)) = _
    rw [tokenizeAux_cons]
    simp only [hc, if_true]
    rw [ih (c :: acc) l (fun d hd => hw d (List.mem_cons_of_mem c hd))]
    simp [List.append_assoc]

theorem tokenize_render (ts : List Tok) (h : WfToks ts) :
    tokenize (renderToks ts) = ts := by
  induction h with
  | nil => rfl
  | sep c rest hc hr ih =>
    show tokenizeAux [] (c :: renderToks rest) = .sep c :: rest
    rw [tokenizeAux_cons]
    simp only [hc, Bool.false_eq_true, if_false]
    show Tok.sep c :: tokenize (renderToks rest) = _
    exact congrArg (Tok.sep c :: ·) ih
  | wordLast w h1 h2 =>
    show tokenizeAux [] (w ++ renderToks []) = [.word w]
    rw [tokenizeAux_word_chunk w [] _ h2, List.append_nil]
    show flushWord w.reverse [] = [.word w]
    have hne : w.reverse.isEmpty = false := by
      simp [h1]
    rw [flushWord_ne _ _ hne, List.reverse_reverse]
  | wordSep w c rest h1 h2 h3 hr ih =>
    show tokenizeAux [] (w ++ (c :: renderToks rest)) = .word w :: .sep c :: rest
    rw [tokenizeAux_word_chunk w [] _ h2, List.append_nil, tokenizeAux_cons]
    simp only [h3, Bool.false_eq_true, if_false]
    have hne : w.reverse.isEmpty = false := by
      simp [h1]
    rw [flushWord_ne _ _ hne, List.reverse_reverse]
    exact congrArg (fun z => Tok.word w :: Tok.sep c :: z) ih

/-- C8: the credential redactor is idempotent — re-applying it to
already-redacted text changes nothing — and a credential-shaped token (here
the OAuth rule, the first of the table) is replaced by its fixed category
marker rather than the literal value. -/
theorem c8_redaction_idempotent :
    (∀ x : String,
      redact_credentials (redact_credentials x) = redact_credentials x) ∧
    (∀ w : List Char,
      ("oauth_".data.isPrefixOf w && decide (6 < w.length)) = true →
      redactWord w = "oauth_REDACTED".data) := by
  constructor
  · intro x
    unfold redact_credentials
    rw [show (String.mk (renderToks ((tokenize x.data).map redactTok))).data =
        renderToks ((tokenize x.data).map redactTok) from rfl]
    rw [tokenize_render _ (wf_map_redactTok (wf_tokenize x.data))]
    rw [List.map_map]
    rw [show redactTok ∘ redactTok = redactTok from funext redactTok_idem]
  · intro w h
    unfold redactWord
    rw [if_pos h]

/-- Witness for C8: the tests' OAuth scenario is a fixed point of a second
redaction pass, and the token itself maps to the category marker. -/
theorem c8_redaction_idempotent_witness :
    redact_credentials
        (redact_credentials "Error: Invalid token oauth_abc123xyz456") =
      redact_credentials "Error: Invalid token oauth_abc123xyz456" ∧
    redactWord "oauth_abc123xyz456".data = "oauth_REDACTED".data :=
  ⟨c8_redaction_idempotent.1 _, c8_redaction_idempotent.2 _ (by decide)⟩

end Harvest
